import Mathlib

/-!
A shallow embedding, in Lean 4, of the constraint-generation and
witness-assignment engine of the ml-zkvm repository
(`src/circuit/ops/chip.rs`), together with theorems settling the
frozen claims about `BaseConfig`.

The embedding is parametric over a commutative ring `F` standing for the
prime field of the proof system.  Types that the engine consumes but that
live outside `src/` (the column-handle abstraction `VarTensor`, the value
container `ValTensor`, the lookup `Table`, the operation capability `Op`,
the region context) are modelled from the specification, each marked by a
doc comment starting `Modelled from the spec:`.
-/

set_option maxHeartbeats 1000000

/-- The sanity-check mode of `chip.rs` (`enum CheckMode { SAFE, UNSAFE }`). -/
inductive CheckMode where
  | SAFE
  | UNSAFE
deriving DecidableEq, Repr

/-- The circuit error taxonomy of `chip.rs` (`enum CircuitError`). -/
inductive CircuitError where
  | DimMismatch (op : String)
  | LookupInstantiation
  | TableAlreadyAssigned
  | UnsupportedOp
deriving DecidableEq, Repr

/-- Modelled from the spec: the multi-dimensional value container holding
circuit values with known/unknown cell tracking (`ValTensor<F>`); a cell is
`none` when its value is still symbolic/unknown (key-generation passes). -/
structure ValTensor (F : Type) where
  vals : List (Option F)

/-- `ValTensor::any_unknowns` — whether any cell is unknown. -/
def ValTensor.any_unknowns {F : Type} (v : ValTensor F) : Bool :=
  v.vals.any (fun c => c.isNone)

/-- Modelled from the spec: the region context consumed by layout;
`is_dummy()` is true during placeholder/key-setup passes. -/
structure RegionCtx where
  is_dummy : Bool

/-- Modelled from the spec: the polymorphic operation capability
(`Box<dyn Op<F>>`), reduced to what `BaseConfig::layout` consumes: its own
layout step producing an optional claimed output, and the pure-value
recomputation check `safe_mode_check`.  Errors are human-readable strings
(`Box<dyn Error>`). -/
structure Op (F : Type) where
  layoutResult : List (ValTensor F) → Except String (Option (ValTensor F))
  safe_mode_check : ValTensor F → List (ValTensor F) → Except String Unit

/-- The subset of the `BaseConfig` aggregate state that `layout` reads;
the full aggregate is defined further below, after the configuration
machinery, and `layout` is stated over the full aggregate. -/
def CheckMode.isSafe : CheckMode → Bool
  | CheckMode.SAFE => true
  | CheckMode.UNSAFE => false

/- ### Expressions and the constraint-system state -/

/-- Symbolic cell/constraint expressions, after halo2's `Expression<F>`
as used by `chip.rs`: constants, selector queries, advice-cell queries
(column id, rotation), and ring operations. -/
inductive Expression (F : Type) where
  | const (c : F)
  | selector (s : Nat)
  | advice (col : Nat) (rot : Int)
  | add (a b : Expression F)
  | sub (a b : Expression F)
  | mul (a b : Expression F)
deriving DecidableEq, Repr

/-- Evaluation of an expression under a selector assignment `σs` and an
advice-cell assignment `σa`. -/
def Expression.eval {F : Type} [CommRing F] (σs : Nat → F) (σa : Nat → Int → F) :
    Expression F → F
  | Expression.const c => c
  | Expression.selector s => σs s
  | Expression.advice col rot => σa col rot
  | Expression.add a b => Expression.eval σs σa a + Expression.eval σs σa b
  | Expression.sub a b => Expression.eval σs σa a - Expression.eval σs σa b
  | Expression.mul a b => Expression.eval σs σa a * Expression.eval σs σa b

/-- A registered gate: its name, the selector it is gated by
(`Constraints::with_selector`), if any — the auxiliary lookup gate has
none — and its polynomial constraints. -/
structure Gate (F : Type) where
  name : String
  gateSelector : Option Nat
  constraints : List (Expression F)
deriving DecidableEq, Repr

/-- The mutable `ConstraintSystem<F>` state threaded through configuration:
a fresh-selector counter (`meta.selector()` / `cs.complex_selector()`), a
fresh-table-column counter, the registered gates, and the registered lookup
arguments (lists of (expression, table-column) pairs). -/
structure CS (F : Type) where
  numSelectors : Nat
  numTableCols : Nat
  gates : List (Gate F)
  lookups : List (List (Expression F × Nat))

/-- `meta.selector()` / `cs.complex_selector()`: allocate a fresh selector. -/
def CS.freshSelector {F : Type} (cs : CS F) : Nat × CS F :=
  (cs.numSelectors, { cs with numSelectors := cs.numSelectors + 1 })

/-- Allocate `n` fresh selectors in sequence, returning their ids. -/
def CS.freshSelectors {F : Type} (cs : CS F) (n : Nat) : List Nat × CS F :=
  ((List.range n).map (fun k => cs.numSelectors + k),
    { cs with numSelectors := cs.numSelectors + n })

/-- Allocate `n` fresh lookup-table columns, returning their ids. -/
def CS.freshTableCols {F : Type} (cs : CS F) (n : Nat) : List Nat × CS F :=
  ((List.range n).map (fun k => cs.numTableCols + k),
    { cs with numTableCols := cs.numTableCols + n })

/-- `meta.create_gate`: register a gate. -/
def CS.addGate {F : Type} (cs : CS F) (g : Gate F) : CS F :=
  { cs with gates := cs.gates ++ [g] }

/-- `cs.lookup`: register a lookup argument. -/
def CS.addLookup {F : Type} (cs : CS F) (l : List (Expression F × Nat)) : CS F :=
  { cs with lookups := cs.lookups ++ [l] }

/- ### Column handles -/

/-- Modelled from the spec: the column-handle abstraction `VarTensor` —
either a set of advice columns of equal size, a dummy handle for
circuit-size estimation, or the unbound placeholder `Empty`. -/
inductive VarTensor where
  | Advice (inner : List Nat) (colSize : Nat)
  | Dummy (colSize : Nat)
  | Empty
deriving DecidableEq, Repr

/-- `VarTensor::num_cols`. -/
def VarTensor.num_cols : VarTensor → Nat
  | VarTensor.Advice inner _ => inner.length
  | VarTensor.Dummy _ => 0
  | VarTensor.Empty => 0

/-- `VarTensor::col_size`. -/
def VarTensor.col_size : VarTensor → Nat
  | VarTensor.Advice _ c => c
  | VarTensor.Dummy c => c
  | VarTensor.Empty => 0

/-- Modelled from the spec: `query_rng(offset, index, range)` produces the
symbolic cell expressions of an advice handle over a row range at a
rotation offset; on a non-advice handle the query fails (the caller
`.expect`s, i.e. panics). -/
def VarTensor.query_rng (F : Type) : VarTensor → Int → Nat → Nat →
    Option (List (Expression F))
  | VarTensor.Advice inner colSize, off, idx, rng =>
      some ((List.range rng).map (fun k =>
        Expression.advice (inner.getD ((idx + k) / colSize) 0)
          (off + (((idx + k) % colSize : Nat) : Int))))
  | VarTensor.Dummy _, _, _, _ => none
  | VarTensor.Empty, _, _, _ => none

/- ### The primitive operation catalog -/

/-- The closed catalog of primitive arithmetic operations (`BaseOp`),
in the order `configure` registers them. -/
inductive BaseOp where
  | Add
  | Sub
  | Dot
  | CumProd
  | Sum
  | Neg
  | Mult
  | IsZero
  | Identity
  | IsBoolean
deriving DecidableEq, Repr

/-- Modelled from the spec: each primitive's arity (1 or 2).  IsZero and
IsBoolean assert directly on the second input, hence arity 1 reading the
second input slot. -/
def BaseOp.num_inputs : BaseOp → Nat
  | BaseOp.Add => 2
  | BaseOp.Sub => 2
  | BaseOp.Dot => 2
  | BaseOp.CumProd => 1
  | BaseOp.Sum => 1
  | BaseOp.Neg => 1
  | BaseOp.Mult => 2
  | BaseOp.IsZero => 1
  | BaseOp.Identity => 1
  | BaseOp.IsBoolean => 1

/-- Modelled from the spec: a display name per primitive (`as_str`). -/
def BaseOp.as_str : BaseOp → String
  | BaseOp.Add => "ADD"
  | BaseOp.Sub => "SUB"
  | BaseOp.Dot => "DOT"
  | BaseOp.CumProd => "CUMPROD"
  | BaseOp.Sum => "SUM"
  | BaseOp.Neg => "NEG"
  | BaseOp.Mult => "MULT"
  | BaseOp.IsZero => "ISZERO"
  | BaseOp.Identity => "IDENTITY"
  | BaseOp.IsBoolean => "ISBOOLEAN"

/-- Modelled from the spec: the remaining per-primitive data the generic
gate path consumes — the algebraic formula `f(q0, q1, out0)`, the
row-range/offset descriptor `query_offset_rng`, and the constrained result
slot `constraint_idx`.  The spec fixes their signatures but not their
values, so the development is parametric over them; no claim depends on
the concrete formulas. -/
structure BaseOpSem (F : Type) where
  f : BaseOp → Expression F × Expression F × Expression F → Expression F
  query_offset_rng : BaseOp → Int × Nat
  constraint_idx : BaseOp → Nat

/- ### Association-map helpers (BTreeMap models) -/

/-- Insert into an association list with map semantics: an existing key's
value is replaced in place, a new key is appended.  Models insertion into
`BTreeMap` up to iteration order; for the selector map every inserted key
is fresh, so entries simply accumulate in insertion order (the source
iterates in key order instead, which permutes the registered-gate list but
not the selector–gate association, and no claim observes that order). -/
def mapInsert {κ β : Type} [DecidableEq κ] (k : κ) (v : β) :
    List (κ × β) → List (κ × β)
  | [] => [(k, v)]
  | (k', v') :: t =>
      if k = k' then (k, v) :: t else (k', v') :: mapInsert k v t

/-- `BTreeMap::contains_key`. -/
def mapContains {κ β : Type} [DecidableEq κ] (k : κ) (l : List (κ × β)) : Bool :=
  l.any (fun p => p.1 = k)

/-- Map lookup by key. -/
def mapGet {κ β : Type} [DecidableEq κ] (k : κ) : List (κ × β) → Option β
  | [] => none
  | (k', v) :: t => if k = k' then some v else mapGet k t

/-- Order-preserving insert into a key-sorted association list
(keys `Nat`, ascending): models the key-ordered storage of a `BTreeMap`,
whose `values()` iteration the table registry relies on. -/
def sortedInsert {β : Type} (k : Nat) (v : β) :
    List (Nat × β) → List (Nat × β)
  | [] => [(k, v)]
  | (k', v') :: t =>
      if k < k' then (k, v) :: (k', v') :: t
      else if k = k' then (k, v) :: t
      else (k', v') :: sortedInsert k v t

/- ### Lookup operations and tables -/

/-- Modelled from the spec: a nonlinear-operation identity is a totally
ordered, hashable key distinguishing one parametrized nonlinear function
from another; we use its rank in that total order. -/
abbrev LookupOp := Nat

/-- Modelled from the spec: the externally defined data attached to a
nonlinear-operation identity — how many component tables its lookup is the
union of, its fixed default (input, output) pair (`nl.default_pair()`),
and its integer function used to populate table codomains. -/
structure LookupEnv (F : Type) where
  numComponents : LookupOp → Nat
  defaultPair : LookupOp → F × F
  fn : LookupOp → Int → Int

/-- Modelled from the spec: the lookup `Table<F>` — its component domain
columns `table_inputs` (possibly shared with another table), its codomain
columns `table_outputs`, its write-once `is_assigned` flag, the identity
it tabulates, and the bit-width of its legal input range. -/
structure Table where
  table_inputs : List Nat
  table_outputs : List Nat
  is_assigned : Bool
  nonlinearity : LookupOp
  bits : Nat
deriving DecidableEq, Repr

/-- Modelled from the spec: structural compatibility of an existing
table's domain with a requested table — the domain enumerates exactly the
inputs of the identity's bit-width range, so two domains are structurally
compatible precisely when the bit-widths agree. -/
def Table.compatibleDomain (t : Table) (bits : Nat) : Bool :=
  t.bits == bits

/-- Modelled from the spec: `Table::configure(cs, bits, logrows, nl,
shared_domain)` — construct a new, unassigned table for identity `nl`;
when a shared domain is supplied its columns are adopted as the new
table's `table_inputs`, otherwise one fresh domain column per component of
the identity's lookup is allocated; fresh codomain columns (one per
component) are always allocated. -/
def Table.configure {F : Type} (env : LookupEnv F) (cs : CS F)
    (bits _logrows : Nat) (nl : LookupOp) (shared : Option (List Nat)) :
    Table × CS F :=
  let (inCols, cs1) :=
    match shared with
    | some cols => (cols, cs)
    | none => cs.freshTableCols (env.numComponents nl)
  let (outCols, cs2) := cs1.freshTableCols inCols.length
  ({ table_inputs := inCols, table_outputs := outCols, is_assigned := false,
     nonlinearity := nl, bits := bits }, cs2)

/-- The increasing enumeration of the signed `bits`-wide input range,
`-2^(bits-1), …, 2^(bits-1) - 1` (cf. `alloc_table` in `nl.rs`:
`smallest..largest` ascending). -/
def signedRange (bits : Nat) : List Int :=
  (List.range (2 ^ bits)).map (fun k => (k : Int) - 2 ^ (bits - 1))

/-- One witness-cell write performed during table layout:
target table column, row, integer value. -/
structure TableWrite where
  col : Nat
  row : Nat
  val : Int
deriving DecidableEq, Repr

/-- Modelled from the spec: `Table::layout(preassigned_input)` — populate
the table's cells in increasing order of the signed input range and mark
the table assigned.  `chip.rs` passes `i != 0` over the registry, and the
spec (§4.3) states that a table sharing a domain with an earlier-populated
table skips re-writing domain cells and populates only its own codomain;
so a `true` flag means the domain columns are already populated elsewhere
and only the codomain is written. -/
def Table.layout {F : Type} (env : LookupEnv F) (t : Table)
    (preassigned_input : Bool) : Table × List TableWrite :=
  let rng := signedRange t.bits
  let domainWrites :=
    if preassigned_input then []
    else t.table_inputs.flatMap (fun c =>
      rng.enum.map (fun p => TableWrite.mk c p.1 p.2))
  let codomainWrites := t.table_outputs.flatMap (fun c =>
    rng.enum.map (fun p => TableWrite.mk c p.1 (env.fn t.nonlinearity p.2)))
  ({ t with is_assigned := true }, domainWrites ++ codomainWrites)

/- ### The configuration aggregate -/

/-- The configuration aggregate `BaseConfig<F>` of `chip.rs` (its
phantom field dropped; none of its stored data mentions `F` in this
embedding — field values live in the constraint-system state). -/
structure BaseConfig where
  inputs : List VarTensor
  lookup_input : VarTensor
  output : VarTensor
  lookup_output : VarTensor
  selectors : List ((BaseOp × Nat) × Nat)
  lookup_selectors : List ((LookupOp × Nat) × Nat)
  tables : List (LookupOp × Table)
  check_mode : CheckMode
deriving DecidableEq, Repr

/-- `BaseConfig::dummy(col_size)`. -/
def BaseConfig.dummy (col_size : Nat) : BaseConfig :=
  { inputs := [VarTensor.Dummy col_size, VarTensor.Dummy col_size],
    lookup_input := VarTensor.Dummy col_size,
    output := VarTensor.Dummy col_size,
    lookup_output := VarTensor.Dummy col_size,
    selectors := [], lookup_selectors := [], tables := [],
    check_mode := CheckMode.SAFE }

/- ### Gate construction (`BaseConfig::configure`) -/

/-- The query vector `qis` of a gate body: two slots initialised to the
zero expression, then slots `2 - num_inputs, …, 1` overwritten with the
single-cell query of the matching input handle at rotation 0
(`inputs[i].query_rng(meta, 0, idx_offset, 1)[0]`); a failing query is a
panic (`.expect`), hence `none`. -/
def gateQis (F : Type) [CommRing F] (inputs : VarTensor × VarTensor)
    (idx_offset : Nat) (n : Nat) : Option (Expression F × Expression F) := do
  let q0 ←
    if 2 - n ≤ 0 then do
      let l ← VarTensor.query_rng F inputs.1 0 idx_offset 1
      l.head?
    else pure (Expression.const 0)
  let q1 ←
    if 2 - n ≤ 1 then do
      let l ← VarTensor.query_rng F inputs.2 0 idx_offset 1
      l.head?
    else pure (Expression.const 0)
  pure (q0, q1)

/-- The constraint list of the gate registered for one `(base_op, col_idx)`
selector entry: IsBoolean asserts `q1·(q1 − 1)`, IsZero asserts `q1`, and
every other primitive takes the generic path, asserting
`expected_output[constraint_idx] − f(q0, q1, expected_output[0])`. -/
def gateConstraints {F : Type} [CommRing F] (sem : BaseOpSem F)
    (inputs : VarTensor × VarTensor) (output : VarTensor)
    (base_op : BaseOp) (col_idx : Nat) : Option (List (Expression F)) := do
  let idx_offset := col_idx * output.col_size
  let (q0, q1) ← gateQis F inputs idx_offset base_op.num_inputs
  match base_op with
  | BaseOp.IsBoolean =>
      pure [Expression.mul q1 (Expression.sub q1 (Expression.const 1))]
  | BaseOp.IsZero => pure [q1]
  | _ =>
      let (rotation_offset, rng) := sem.query_offset_rng base_op
      let expected_output ← output.query_rng F rotation_offset idx_offset rng
      let e0 ← expected_output.head?
      let res := sem.f base_op (q0, q1, e0)
      let ec ← expected_output.get? (sem.constraint_idx base_op)
      pure [Expression.sub ec res]

/-- The ten primitives in the order `configure` inserts their selectors. -/
def baseOpOrder : List BaseOp :=
  [BaseOp.Add, BaseOp.Sub, BaseOp.Dot, BaseOp.CumProd, BaseOp.Sum,
   BaseOp.Neg, BaseOp.Mult, BaseOp.IsZero, BaseOp.Identity, BaseOp.IsBoolean]

/-- One step of the selector-allocation loop of `configure`: allocate a
fresh selector and insert it under key `(base_op, i)`
(`selectors.insert((BaseOp::…, i), meta.selector())`). -/
def allocOpStep {F : Type} (i : Nat)
    (acc2 : List ((BaseOp × Nat) × Nat) × CS F) (op : BaseOp) :
    List ((BaseOp × Nat) × Nat) × CS F :=
  let sm := CS.freshSelector acc2.2
  (mapInsert (op, i) sm.1 acc2.1, sm.2)

/-- The selector-allocation loop of `configure`: for each column `i`, one
fresh selector per primitive, inserted under key `(base_op, i)`. -/
def allocBaseSelectors {F : Type} (numCols : Nat) (meta : CS F) :
    List ((BaseOp × Nat) × Nat) × CS F :=
  (List.range numCols).foldl
    (fun acc i => baseOpOrder.foldl (allocOpStep i) acc)
    ([], meta)

/-- The gate-registration loop of `configure`: one `create_gate` per
selector-map entry, each gated by that entry's selector. -/
def registerBaseGates {F : Type} [CommRing F] (sem : BaseOpSem F)
    (inputs : VarTensor × VarTensor) (output : VarTensor)
    (selectors : List ((BaseOp × Nat) × Nat)) (meta : CS F) :
    Option (CS F) :=
  selectors.foldlM
    (fun m entry => do
      let cs ← gateConstraints sem inputs output entry.1.1 entry.1.2
      pure (CS.addGate m
        { name := entry.1.1.as_str, gateSelector := some entry.2,
          constraints := cs }))
    meta

/-- The distinct fatal (panicking) failure modes of configuration: the
equal-column-count assertions of `configure`, a failing cell query
(`.expect`), and a non-advice handle reaching lookup wiring
(`"wrong input type"`). -/
inductive Panic where
  | dimAssert
  | queryFailed
  | wrongInputType
deriving DecidableEq, Repr

/-- `BaseConfig::configure`: assert equal column counts (a fatal panic on
violation, not a recoverable error), allocate one selector per
(primitive, column) pair, register one gate per selector, and return the
aggregate with empty lookup state and `Empty` lookup handles. -/
def BaseConfig.configure {F : Type} [CommRing F] (sem : BaseOpSem F) (meta : CS F)
    (inputs : VarTensor × VarTensor) (output : VarTensor)
    (check_mode : CheckMode) : Except Panic (CS F × BaseConfig) :=
  if inputs.1.num_cols = inputs.2.num_cols ∧ inputs.1.num_cols = output.num_cols
  then
    let sm := allocBaseSelectors output.num_cols meta
    match registerBaseGates sem inputs output sm.1 sm.2 with
    | none => Except.error Panic.queryFailed
    | some meta2 =>
        Except.ok (meta2,
          { selectors := sm.1, lookup_selectors := [],
            inputs := [inputs.1, inputs.2],
            lookup_input := VarTensor.Empty, lookup_output := VarTensor.Empty,
            tables := [], output := output, check_mode := check_mode })
  else Except.error Panic.dimAssert

/- ### Lookup configuration (`BaseConfig::configure_lookup`) -/

/-- The lookup argument registered for input column `x`: per component
table `i`, the pair of tuples
`(q_i · input_cell + (1 − q_i) · default_x, input_col_i)` and
`(q_i · output_cell + (1 − q_i) · default_y, output_col_i)`; a non-advice
input or output handle is a panic (`"wrong input type"`), hence `none`. -/
def lookupArgFor {F : Type} [CommRing F] (env : LookupEnv F) (nl : LookupOp)
    (input output : VarTensor) (x : Nat) (qlookups : List Nat)
    (table : Table) : Option (List (Expression F × Nat)) := do
  let inCol ←
    match input with
    | VarTensor.Advice advices _ => some (advices.getD x 0)
    | _ => none
  let outCol ←
    match output with
    | VarTensor.Advice advices _ => some (advices.getD x 0)
    | _ => none
  let dxy := env.defaultPair nl
  pure ((table.table_inputs.zip table.table_outputs).enum.flatMap (fun p =>
    let q := Expression.selector (F := F) (qlookups.getD p.1 0)
    let notq := Expression.sub (Expression.const 1) q
    [(Expression.add (Expression.mul q (Expression.advice inCol 0))
        (Expression.mul notq (Expression.const dxy.1)), p.2.1),
     (Expression.add (Expression.mul q (Expression.advice outCol 0))
        (Expression.mul notq (Expression.const dxy.2)), p.2.2)]))

/-- The auxiliary gate registered per input column: a single constraint,
the product of that column's per-component gating flags, accumulated from
the constant 1 (`start = 1; for s in qlookups { start = start * s }`);
it is registered bare, without `with_selector`. -/
def aggregateGate {F : Type} [CommRing F] (qlookups : List Nat) : Gate F :=
  { name := "", gateSelector := none,
    constraints := [qlookups.foldl
      (fun acc s => Expression.mul acc (Expression.selector s))
      (Expression.const 1)] }

/-- The body of `configure_lookup`'s per-column loop: allocate one complex
selector per component table, register the lookup argument, allocate the
aggregate selector, register the auxiliary product gate, and record the
aggregate selector under key `(nl, x)`. -/
def configureLookupColumn {F : Type} [CommRing F] (env : LookupEnv F)
    (nl : LookupOp) (input output : VarTensor) (table : Table)
    (acc : List ((LookupOp × Nat) × Nat) × CS F) (x : Nat) :
    Option (List ((LookupOp × Nat) × Nat) × CS F) := do
  let (qlookups, cs1) := CS.freshSelectors acc.2 table.table_inputs.length
  let arg ← lookupArgFor env nl input output x qlookups table
  let cs2 := CS.addLookup cs1 arg
  let (aggregate_selector, cs3) := CS.freshSelector cs2
  let cs4 := CS.addGate cs3 (aggregateGate qlookups)
  pure (mapInsert (nl, x) aggregate_selector acc.1, cs4)

/-- The table-construction step of `configure_lookup`: if any table is
already registered, the first registered table's domain columns (in key
order, `self.tables.values().next()`) are shared into the new table's
construction; otherwise the table is configured with a fresh domain. -/
def chosenTable {F : Type} (env : LookupEnv F) (cfg : BaseConfig) (cs : CS F)
    (bits logrows : Nat) (nl : LookupOp) : Table × CS F :=
  match (cfg.tables.map Prod.snd).head? with
  | some t0 => Table.configure env cs bits logrows nl (some t0.table_inputs)
  | none => Table.configure env cs bits logrows nl none

/-- The aggregate-state update of a successful full `configure_lookup`
run: insert the new table under its identity, extend the lookup-selector
map with the per-column aggregate selectors, and bind the shared lookup
handles if still `Empty` (an already-bound handle is left untouched). -/
def applyLookupState (cfg : BaseConfig) (input output : VarTensor)
    (nl : LookupOp) (table : Table)
    (sels : List ((LookupOp × Nat) × Nat)) : BaseConfig :=
  { cfg with
    tables := sortedInsert nl table cfg.tables,
    lookup_selectors :=
      sels.foldl (fun m e => mapInsert e.1 e.2 m) cfg.lookup_selectors,
    lookup_input :=
      match cfg.lookup_input with
      | VarTensor.Empty => input
      | v => v,
    lookup_output :=
      match cfg.lookup_output with
      | VarTensor.Empty => output
      | v => v }

/-- `BaseConfig::configure_lookup`: a no-op returning success when the
identity already has a table; otherwise construct the table (adopting the
first registered table's domain columns when any table exists), insert it,
wire one lookup argument and one auxiliary gate per input column, extend
the lookup-selector map, and bind the lookup handles if still `Empty`. -/
def BaseConfig.configure_lookup {F : Type} [CommRing F] (env : LookupEnv F)
    (cfg : BaseConfig) (cs : CS F) (input output : VarTensor)
    (bits logrows : Nat) (nl : LookupOp) : Option (CS F × BaseConfig) :=
  if mapContains nl cfg.tables then
    some (cs, cfg)
  else
    Option.bind
      ((List.range input.num_cols).foldlM
        (configureLookupColumn env nl input output
          (chosenTable env cfg cs bits logrows nl).1)
        ([], (chosenTable env cfg cs bits logrows nl).2))
      (fun sc => some (sc.2,
        applyLookupState cfg input output nl
          (chosenTable env cfg cs bits logrows nl).1 sc.1))

/- ### Table layout (`BaseConfig::layout_tables`) -/

/-- The registry walk of `layout_tables`: tables are visited in key order
with their registry index `i`; an already-assigned table is skipped, and
an unassigned one is laid out with domain population for `i = 0` and in
preassigned-domain mode otherwise. -/
def layoutTablesGo {F : Type} (env : LookupEnv F) :
    Nat → List (LookupOp × Table) → List (LookupOp × Table) × List TableWrite
  | _, [] => ([], [])
  | i, (k, t) :: rest =>
      let tw :=
        if t.is_assigned then (t, [])
        else if i = 0 then Table.layout env t false
        else Table.layout env t true
      let rw := layoutTablesGo env (i + 1) rest
      ((k, tw.1) :: rw.1, tw.2 ++ rw.2)

/-- `BaseConfig::layout_tables`: populate every registered, not-yet
assigned table; returns the updated aggregate and the cell writes
performed. -/
def BaseConfig.layout_tables {F : Type} (env : LookupEnv F)
    (cfg : BaseConfig) : BaseConfig × List TableWrite :=
  let r := layoutTablesGo env 0 cfg.tables
  ({ cfg with tables := r.1 }, r.2)

/- ### Operation layout (`BaseConfig::layout`) -/

/-- `BaseConfig::layout`: delegate to the operation's own layout, then,
in SAFE mode on a real (non-dummy) pass, when a claimed output exists and
it together with every input value is fully concrete, run
`safe_mode_check`.  The second component instruments whether
`safe_mode_check` was invoked. -/
def BaseConfig.layout {F : Type} (cfg : BaseConfig) (region : RegionCtx)
    (values : List (ValTensor F)) (op : Op F) :
    Except String (Option (ValTensor F)) × Bool :=
  match op.layoutResult values with
  | Except.error e => (Except.error e, false)
  | Except.ok res =>
      if cfg.check_mode = CheckMode.SAFE && !region.is_dummy then
        match res with
        | some claimed_output =>
            let is_assigned := values.foldl
              (fun acc val => acc && !val.any_unknowns)
              (!claimed_output.any_unknowns)
            if is_assigned then
              match op.safe_mode_check claimed_output values with
              | Except.error e => (Except.error e, true)
              | Except.ok _ => (Except.ok res, true)
            else (Except.ok res, false)
        | none => (Except.ok res, false)
      else (Except.ok res, false)

/- ### Concrete sample data used by witnesses -/

/-- A concrete fully-known integer input pair (the values 2 and 3). -/
def valsKnown : List (ValTensor Int) := [⟨[some 2]⟩, ⟨[some 3]⟩]

/-- A concrete operation claiming output 6 whose pure recomputation check
fails — the Add(2, 3) laid out with claimed output 6 scenario. -/
def opClaim6 : Op Int :=
  { layoutResult := fun _ => Except.ok (some ⟨[some 6]⟩),
    safe_mode_check := fun _ _ => Except.error "safe mode check failed" }

/-- A concrete operation whose layout step returns no claimed output. -/
def opNoOutput : Op Int :=
  { layoutResult := fun _ => Except.ok none,
    safe_mode_check := fun _ _ => Except.error "unreachable" }

/-- A real (non-placeholder) region. -/
def regionReal : RegionCtx := ⟨false⟩

/-- A concrete primitive-operation semantics instance. -/
def semSample : BaseOpSem Int :=
  { f := fun _ p => p.1,
    query_offset_rng := fun _ => (0, 1),
    constraint_idx := fun _ => 0 }

/-- A fresh, empty constraint-system state. -/
def csEmpty : CS Int := ⟨0, 0, [], []⟩

/-- Concrete advice handles of width 1. -/
def inSample0 : VarTensor := VarTensor.Advice [0] 1

/-- Concrete advice handles of width 1 (second input). -/
def inSample1 : VarTensor := VarTensor.Advice [1] 1

/-- Concrete advice handle of width 1 (output). -/
def outSample : VarTensor := VarTensor.Advice [2] 1

/-- A concrete lookup environment over the integers: single-component
lookups, default pair (0, 0), identity function. -/
def envSample : LookupEnv Int :=
  { numComponents := fun _ => 1,
    defaultPair := fun _ => (0, 0),
    fn := fun _ x => x }

/-- A concrete post-`configure` aggregate: empty tables, unbound lookup
handles. -/
def cfgSample : BaseConfig :=
  { inputs := [inSample0, inSample1],
    lookup_input := VarTensor.Empty,
    output := outSample,
    lookup_output := VarTensor.Empty,
    selectors := [], lookup_selectors := [], tables := [],
    check_mode := CheckMode.SAFE }

/-- A concrete unassigned table over domain column 0, codomain column 1,
2-bit range, identity 0. -/
def tableA : Table :=
  { table_inputs := [0], table_outputs := [1], is_assigned := false,
    nonlinearity := 0, bits := 2 }

/-- A second concrete unassigned table sharing `tableA`'s domain column
but with its own codomain column 2, identity 1. -/
def tableB : Table :=
  { table_inputs := [0], table_outputs := [2], is_assigned := false,
    nonlinearity := 1, bits := 2 }

/-- A concrete aggregate carrying the two registered tables above. -/
def cfgTables : BaseConfig :=
  { cfgSample with tables := [(0, tableA), (1, tableB)] }

/-- The single-cell query of the second input handle at rotation 0 for a
given column — the `qis[1]` slot the IsBoolean/IsZero gates constrain
(`inputs[1].query_rng(meta, 0, idx_offset, 1)[0]`). -/
def secondInputQuery (F : Type) [CommRing F] (inputs : VarTensor × VarTensor)
    (output : VarTensor) (col_idx : Nat) : Option (Expression F) :=
  Option.bind
    (VarTensor.query_rng F inputs.2 0 (col_idx * output.col_size) 1)
    List.head?

/-- The selector ids of the per-component gating flags allocated for
column `x` by `configure_lookup`, starting from selector counter `s0` with
`n` component tables: each column consumes `n` flag selectors followed by
one aggregate selector. -/
def lookupFlagIds (s0 n x : Nat) : List Nat :=
  (List.range n).map (fun j => s0 + x * (n + 1) + j)

/-- The table produced for identity 1 by a second lookup configuration
with bit-width 3 after `tableA` exists: it adopts `tableA`'s domain column
0 although the bit-widths differ. -/
def tableC5 : Table :=
  { table_inputs := [0], table_outputs := [2], is_assigned := false,
    nonlinearity := 1, bits := 3 }

/-- `tableA` after assignment. -/
def tableADone : Table :=
  { table_inputs := [0], table_outputs := [1], is_assigned := true,
    nonlinearity := 0, bits := 2 }

/-- A concrete aggregate whose every registered table is assigned. -/
def cfgAssigned : BaseConfig :=
  { cfgSample with tables := [(0, tableADone)] }

/- ### Helper lemmas on the map models -/

lemma mapContains_eq_false_iff {κ β : Type} [DecidableEq κ] (k : κ)
    (l : List (κ × β)) : mapContains k l = false ↔ ∀ e ∈ l, e.1 ≠ k := by
  simp [mapContains]

lemma mapInsert_of_not_contains {κ β : Type} [DecidableEq κ] (k : κ) (v : β) :
    ∀ (l : List (κ × β)), mapContains k l = false →
      mapInsert k v l = l ++ [(k, v)] := by
  intro l
  induction l with
  | nil => intro _; rfl
  | cons e t ih =>
      intro h
      rw [mapContains_eq_false_iff] at h
      have he : e.1 ≠ k := h e (by simp)
      have ht : mapContains k t = false := by
        rw [mapContains_eq_false_iff]
        intro e' he'
        exact h e' (by simp [he'])
      simp only [mapInsert]
      rw [if_neg (fun hk => he hk.symm), ih ht]
      simp

lemma mapContains_sortedInsert {β : Type} (k : Nat) (v : β) :
    ∀ (l : List (Nat × β)), mapContains k (sortedInsert k v l) = true := by
  intro l
  induction l with
  | nil => simp [sortedInsert, mapContains]
  | cons e t ih =>
      simp only [sortedInsert]
      by_cases h1 : k < e.1
      · simp [h1, mapContains]
      · by_cases h2 : k = e.1
        · simp [h1, h2, mapContains]
        · simp only [h1, h2, if_false]
          simp [mapContains] at ih ⊢
          exact Or.inr ih

lemma mapGet_sortedInsert_self {β : Type} (k : Nat) (v : β) :
    ∀ (l : List (Nat × β)), mapGet k (sortedInsert k v l) = some v := by
  intro l
  induction l with
  | nil => simp [sortedInsert, mapGet]
  | cons e t ih =>
      simp only [sortedInsert]
      by_cases h1 : k < e.1
      · simp [h1, mapGet]
      · by_cases h2 : k = e.1
        · simp [h1, h2, mapGet]
        · have hne : ¬ k = e.1 := h2
          simp only [h1, h2, if_false]
          simp [mapGet, hne, ih]

lemma mapGet_sortedInsert_ne {β : Type} (k k' : Nat) (v : β) (hne : k ≠ k') :
    ∀ (l : List (Nat × β)), mapGet k (sortedInsert k' v l) = mapGet k l := by
  intro l
  induction l with
  | nil => simp [sortedInsert, mapGet, hne]
  | cons e t ih =>
      simp only [sortedInsert]
      by_cases h1 : k' < e.1
      · simp [h1, mapGet, hne]
      · by_cases h2 : k' = e.1
        · subst h2
          simp [h1, mapGet, hne]
        · simp only [h1, h2, if_false]
          by_cases h3 : k = e.1
          · simp [mapGet, h3]
          · simp [mapGet, h3, ih]

lemma mapContains_nil_false {κ β : Type} [DecidableEq κ] (k : κ) :
    mapContains (β := β) k [] = false := rfl

/- ### Helper lemmas on bool folds and expression evaluation -/

lemma foldl_and_all {F : Type} (values : List (ValTensor F)) (b : Bool) :
    values.foldl (fun acc val => acc && !val.any_unknowns) b
      = (b && values.all (fun v => !v.any_unknowns)) := by
  induction values generalizing b with
  | nil => simp
  | cons v t ih => simp [List.foldl, ih, Bool.and_assoc]

lemma eval_selector_foldl {F : Type} [CommRing F] (σs : Nat → F)
    (σa : Nat → Int → F) (qs : List Nat) :
    ∀ (acc : Expression F),
      Expression.eval σs σa
        (qs.foldl (fun a s => Expression.mul a (Expression.selector s)) acc)
      = Expression.eval σs σa acc * (qs.map σs).prod := by
  induction qs with
  | nil => intro acc; simp
  | cons s t ih =>
      intro acc
      simp only [List.foldl, List.map, List.prod_cons]
      rw [ih]
      simp [Expression.eval]
      ring

/- ### Helper lemmas on selector allocation and gate registration -/

lemma mapContains_append {κ β : Type} [DecidableEq κ] (k : κ)
    (a b : List (κ × β)) :
    mapContains k (a ++ b) = (mapContains k a || mapContains k b) := by
  simp [mapContains, List.any_append]

lemma allocOps_foldl_spec {F : Type} (i : Nat) (ops : List BaseOp) :
    ∀ (l0 : List ((BaseOp × Nat) × Nat)) (cs : CS F),
      ops.Nodup → (∀ op ∈ ops, mapContains (op, i) l0 = false) →
      (ops.foldl (allocOpStep i) (l0, cs)).1.map Prod.fst
          = l0.map Prod.fst ++ ops.map (fun op => (op, i)) ∧
      (ops.foldl (allocOpStep i) (l0, cs)).1.length = l0.length + ops.length ∧
      (ops.foldl (allocOpStep i) (l0, cs)).2.numSelectors
          = cs.numSelectors + ops.length ∧
      (ops.foldl (allocOpStep i) (l0, cs)).2.numTableCols = cs.numTableCols ∧
      (ops.foldl (allocOpStep i) (l0, cs)).2.gates = cs.gates ∧
      (ops.foldl (allocOpStep i) (l0, cs)).2.lookups = cs.lookups := by
  induction ops with
  | nil =>
      intro l0 cs _ _
      refine ⟨by simp, by simp, by simp, by simp, by simp, by simp⟩
  | cons op rest ih =>
      intro l0 cs hnd hfresh
      have hop : mapContains (op, i) l0 = false := hfresh op (by simp)
      have hstep : allocOpStep i (l0, cs) op
          = (l0 ++ [((op, i), cs.numSelectors)],
             { cs with numSelectors := cs.numSelectors + 1 }) := by
        simp [allocOpStep, CS.freshSelector, mapInsert_of_not_contains _ _ _ hop]
      have hrest : ∀ op' ∈ rest,
          mapContains (op', i) (l0 ++ [((op, i), cs.numSelectors)]) = false := by
        intro op' hmem
        rw [mapContains_append]
        have h1 : mapContains (op', i) l0 = false := hfresh op' (by simp [hmem])
        have hne : op ≠ op' := by
          intro hcontra
          exact (List.nodup_cons.mp hnd).1 (hcontra ▸ hmem)
        have h2 : mapContains (β := Nat) ((op', i))
            [((op, i), cs.numSelectors)] = false := by
          rw [mapContains_eq_false_iff]
          intro e he
          simp only [List.mem_singleton] at he
          subst he
          intro hcontra
          have : op = op' := by simpa using hcontra
          exact hne this
        rw [h1, h2]
        rfl
      have := ih (l0 ++ [((op, i), cs.numSelectors)])
        { cs with numSelectors := cs.numSelectors + 1 }
        (List.nodup_cons.mp hnd).2 hrest
      obtain ⟨hkeys, hlen, hns, htc, hg, hlk⟩ := this
      simp only [List.foldl_cons, hstep]
      refine ⟨?_, ?_, ?_, ?_, ?_, ?_⟩
      · rw [hkeys]; simp
      · rw [hlen]
        simp only [List.length_append, List.length_cons, List.length_nil]
        omega
      · rw [hns]
        show cs.numSelectors + 1 + rest.length
            = cs.numSelectors + (op :: rest).length
        simp only [List.length_cons]
        omega
      · rw [htc]
      · rw [hg]
      · rw [hlk]

lemma baseOpOrder_nodup : baseOpOrder.Nodup := by decide

lemma baseOpOrder_length : baseOpOrder.length = 10 := by decide

lemma allocBaseSelectors_spec {F : Type} (numCols : Nat) (meta : CS F) :
    (allocBaseSelectors (F := F) numCols meta).1.map Prod.fst
        = (List.range numCols).flatMap
            (fun i => baseOpOrder.map (fun op => (op, i))) ∧
    (allocBaseSelectors (F := F) numCols meta).1.length = 10 * numCols ∧
    (allocBaseSelectors (F := F) numCols meta).2.numSelectors
        = meta.numSelectors + 10 * numCols ∧
    (allocBaseSelectors (F := F) numCols meta).2.numTableCols
        = meta.numTableCols ∧
    (allocBaseSelectors (F := F) numCols meta).2.gates = meta.gates ∧
    (allocBaseSelectors (F := F) numCols meta).2.lookups = meta.lookups := by
  induction numCols with
  | zero =>
      refine ⟨by simp [allocBaseSelectors], by simp [allocBaseSelectors],
        by simp [allocBaseSelectors], by simp [allocBaseSelectors],
        by simp [allocBaseSelectors], by simp [allocBaseSelectors]⟩
  | succ W ih =>
      obtain ⟨hkeys, hlen, hns, htc, hg, hlk⟩ := ih
      have hfresh : ∀ op ∈ baseOpOrder,
          mapContains (op, W) (allocBaseSelectors (F := F) W meta).1 = false := by
        intro op _
        rw [mapContains_eq_false_iff]
        intro e he
        have : e.1 ∈ (allocBaseSelectors (F := F) W meta).1.map Prod.fst :=
          List.mem_map_of_mem Prod.fst he
        rw [hkeys] at this
        simp only [List.mem_flatMap, List.mem_map, List.mem_range] at this
        obtain ⟨i, hi, op', _, heq⟩ := this
        intro hcontra
        rw [hcontra] at heq
        have : W = i := by simpa using congrArg Prod.snd heq.symm
        omega
      have hunf : allocBaseSelectors (F := F) (W + 1) meta
          = baseOpOrder.foldl (allocOpStep W)
              (allocBaseSelectors (F := F) W meta) := by
        simp [allocBaseSelectors, List.range_succ, List.foldl_append]
      obtain ⟨hk2, hl2, hn2, ht2, hg2, hlk2⟩ := allocOps_foldl_spec W baseOpOrder
        (allocBaseSelectors (F := F) W meta).1
        (allocBaseSelectors (F := F) W meta).2
        baseOpOrder_nodup hfresh
      have hpair : ((allocBaseSelectors (F := F) W meta).1,
          (allocBaseSelectors (F := F) W meta).2)
          = allocBaseSelectors (F := F) W meta := rfl
      rw [hpair] at hk2 hl2 hn2 ht2 hg2 hlk2
      refine ⟨?_, ?_, ?_, ?_, ?_, ?_⟩
      · rw [hunf, hk2, hkeys, List.range_succ]
        simp
      · rw [hunf, hl2, hlen, baseOpOrder_length]
        ring
      · rw [hunf, hn2, hns, baseOpOrder_length]
        ring
      · rw [hunf, ht2, htc]
      · rw [hunf, hg2, hg]
      · rw [hunf, hlk2, hlk]

lemma registerBaseGates_spec {F : Type} [CommRing F] (sem : BaseOpSem F)
    (inputs : VarTensor × VarTensor) (output : VarTensor) :
    ∀ (sels : List ((BaseOp × Nat) × Nat)) (m m' : CS F),
      registerBaseGates sem inputs output sels m = some m' →
      m'.gates.length = m.gates.length + sels.length ∧
      m'.numSelectors = m.numSelectors ∧
      m'.numTableCols = m.numTableCols ∧
      m'.lookups = m.lookups := by
  intro sels
  induction sels with
  | nil =>
      intro m m' h
      simp [registerBaseGates] at h
      subst h
      simp
  | cons e rest ih =>
      intro m m' h
      simp only [registerBaseGates, List.foldlM] at h
      cases hg : gateConstraints sem inputs output e.1.1 e.1.2 with
      | none => rw [hg] at h; simp at h
      | some c =>
          rw [hg] at h
          simp only [Option.bind_eq_bind, Option.some_bind] at h
          have := ih (CS.addGate m
            { name := e.1.1.as_str, gateSelector := some e.2,
              constraints := c }) m' h
          obtain ⟨h1, h2, h3, h4⟩ := this
          simp only [CS.addGate] at h1 h2 h3 h4
          refine ⟨?_, h2, h3, h4⟩
          rw [h1]
          simp only [List.length_append, List.length_cons, List.length_nil]
          omega

/- ### Claim theorems -/

/-- C1: `BaseConfig::layout` invokes the operation's `safe_mode_check`
(the pure-value recomputation asserted equal to the claimed output)
exactly when the check mode is SAFE, the current region is a real
(non-placeholder) pass, the operation's layout returned a claimed output,
and the claimed output and every input value are fully concrete; moreover
in UNSAFE mode, and likewise during a placeholder (dummy) pass, whatever
the operation's layout returned is accepted unchanged with no check. -/
theorem layout_safe_mode_check_iff {F : Type} (cfg : BaseConfig)
    (region : RegionCtx) (values : List (ValTensor F)) (op : Op F) :
    ((BaseConfig.layout cfg region values op).2 = true ↔
      cfg.check_mode = CheckMode.SAFE ∧ region.is_dummy = false ∧
        ∃ c, op.layoutResult values = Except.ok (some c) ∧
          c.any_unknowns = false ∧ ∀ v ∈ values, v.any_unknowns = false) ∧
    (∀ r, cfg.check_mode = CheckMode.UNSAFE →
        op.layoutResult values = Except.ok r →
        BaseConfig.layout cfg region values op = (Except.ok r, false)) ∧
    (∀ r, region.is_dummy = true →
        op.layoutResult values = Except.ok r →
        BaseConfig.layout cfg region values op = (Except.ok r, false)) := by
  unfold BaseConfig.layout
  cases hres : op.layoutResult values with
  | error e =>
      refine ⟨by simp, ?_, ?_⟩
      · intro r _ hr
        exact absurd hr (by simp)
      · intro r _ hr
        exact absurd hr (by simp)
  | ok res =>
      refine ⟨?_, ?_, ?_⟩
      · by_cases hm : cfg.check_mode = CheckMode.SAFE
        · by_cases hd : region.is_dummy = true
          · simp [hm, hd]
          · have hd' : region.is_dummy = false := by
              cases hdum : region.is_dummy
              · rfl
              · exact absurd hdum hd
            cases res with
            | none => simp [hm, hd']
            | some c =>
                by_cases hc : c.any_unknowns = false
                · by_cases hall : values.all (fun v => !v.any_unknowns) = true
                  · have hall' : ∀ v ∈ values, v.any_unknowns = false := by
                      simpa using hall
                    have hcond :
                        (values.foldl (fun acc val => acc && !val.any_unknowns)
                          true) = true := by
                      rw [foldl_and_all, hall]
                      rfl
                    cases hsc : op.safe_mode_check c values with
                    | error e2 =>
                        simp [hm, hd', hc, hcond, hsc]
                        exact hall'
                    | ok u =>
                        simp [hm, hd', hc, hcond, hsc]
                        exact hall'
                  · have hallf : values.all (fun v => !v.any_unknowns) = false := by
                      cases h2 : values.all (fun v => !v.any_unknowns)
                      · rfl
                      · exact absurd h2 hall
                    have hcond :
                        (values.foldl (fun acc val => acc && !val.any_unknowns)
                          true) = false := by
                      rw [foldl_and_all, hallf]
                      rfl
                    have hallp : ¬ ∀ v ∈ values, v.any_unknowns = false := by
                      intro hcontra
                      have hat : values.all (fun v => !v.any_unknowns) = true := by
                        rw [List.all_eq_true]
                        intro v hv
                        simp [hcontra v hv]
                      rw [hat] at hallf
                      cases hallf
                    simp [hm, hd', hc, hcond, hallp]
                · have hc' : c.any_unknowns = true := by
                    cases hcu : c.any_unknowns
                    · exact absurd hcu hc
                    · rfl
                  have hcond :
                      (values.foldl (fun acc val => acc && !val.any_unknowns)
                        false) = false := by
                    rw [foldl_and_all]
                    rfl
                  simp [hm, hd', hc', hcond]
        · have hm' : cfg.check_mode = CheckMode.UNSAFE := by
            cases hcm : cfg.check_mode
            · exact absurd hcm hm
            · rfl
          simp [hm, hm']
      · intro r hmu hr
        injection hr with hrr
        subst hrr
        have hm : ¬ cfg.check_mode = CheckMode.SAFE := by
          rw [hmu]
          simp
        simp [hm]
      · intro r hdum hr
        injection hr with hrr
        subst hrr
        simp [hdum]

/-- C1 witness: in SAFE mode, on a real pass, with concrete inputs 2 and 3
and a concrete claimed output 6, the safety check is invoked. -/
theorem layout_safe_mode_check_iff_witness :
    (BaseConfig.layout (BaseConfig.dummy 1) regionReal valsKnown opClaim6).2
      = true :=
  (layout_safe_mode_check_iff (BaseConfig.dummy 1) regionReal valsKnown
    opClaim6).1.mpr
    ⟨rfl, rfl, ⟨[some 6]⟩, rfl, rfl, by decide⟩

/-- C10: when the operation's own layout call returns no claimed output,
`layout` returns `None` and never invokes `safe_mode_check` — even in
SAFE mode on a real (non-dummy) witness pass with fully concrete inputs. -/
theorem layout_none_no_check {F : Type} (cfg : BaseConfig)
    (region : RegionCtx) (values : List (ValTensor F)) (op : Op F)
    (h : op.layoutResult values = Except.ok none) :
    BaseConfig.layout cfg region values op = (Except.ok none, false) := by
  unfold BaseConfig.layout
  rw [h]
  simp

/-- C10 witness: a concrete SAFE-mode, real-pass, concrete-input layout of
an operation returning no claimed output performs no check. -/
theorem layout_none_no_check_witness :
    BaseConfig.layout (BaseConfig.dummy 1) regionReal valsKnown opNoOutput
      = (Except.ok none, false) :=
  layout_none_no_check (BaseConfig.dummy 1) regionReal valsKnown opNoOutput rfl

/-- C7: `configure` requires both input handles and the output handle to
report equal column counts; exactly when the counts differ, the call fails
with the fatal construction-time dimension assert (a panic, not a
recoverable error) — so under the equal-counts precondition that failure
branch is unreachable. -/
theorem configure_dim_check {F : Type} [CommRing F] (sem : BaseOpSem F)
    (meta : CS F) (inputs : VarTensor × VarTensor) (output : VarTensor)
    (check_mode : CheckMode) :
    BaseConfig.configure sem meta inputs output check_mode
        = Except.error Panic.dimAssert
      ↔ ¬ (inputs.1.num_cols = inputs.2.num_cols ∧
            inputs.1.num_cols = output.num_cols) := by
  by_cases h : inputs.1.num_cols = inputs.2.num_cols ∧
      inputs.1.num_cols = output.num_cols
  · cases hreg : registerBaseGates sem inputs output
        (allocBaseSelectors output.num_cols meta).1
        (allocBaseSelectors output.num_cols meta).2 with
    | none => simp [BaseConfig.configure, h, hreg]
    | some m2 => simp [BaseConfig.configure, h, hreg]
  · simp [BaseConfig.configure, h]

/-- C2: for handles all reporting the same column count `W > 0`, a
successful `configure` creates exactly `10·W` selectors — one per
(primitive, column) pair over the ten primitives, in the catalog order —
allocates exactly `10·W` fresh selectors, and registers exactly one gate
per selector, i.e. `10·W` gates. -/
theorem configure_selector_gate_count {F : Type} [CommRing F]
    (sem : BaseOpSem F) (meta : CS F) (inputs : VarTensor × VarTensor)
    (output : VarTensor) (check_mode : CheckMode) (W : Nat)
    (h1 : inputs.1.num_cols = W) (h2 : inputs.2.num_cols = W)
    (h3 : output.num_cols = W) (hW : 0 < W) (meta' : CS F) (cfg : BaseConfig)
    (hres : BaseConfig.configure sem meta inputs output check_mode
        = Except.ok (meta', cfg)) :
    cfg.selectors.length = 10 * W ∧
    cfg.selectors.map Prod.fst
        = (List.range W).flatMap
            (fun i => baseOpOrder.map (fun op => (op, i))) ∧
    meta'.numSelectors = meta.numSelectors + 10 * W ∧
    meta'.gates.length = meta.gates.length + 10 * W := by
  have hcond : inputs.1.num_cols = inputs.2.num_cols ∧
      inputs.1.num_cols = output.num_cols := by
    rw [h1, h2, h3]
    exact ⟨rfl, rfl⟩
  cases hreg : registerBaseGates sem inputs output
      (allocBaseSelectors output.num_cols meta).1
      (allocBaseSelectors output.num_cols meta).2 with
  | none =>
      simp only [BaseConfig.configure, if_pos hcond] at hres
      rw [hreg] at hres
      cases hres
  | some m2 =>
      simp only [BaseConfig.configure, if_pos hcond] at hres
      rw [hreg] at hres
      have h0 := Except.ok.inj hres
      have hm2 : m2 = meta' := congrArg Prod.fst h0
      obtain ⟨hkeys, hlen, hns, htc, hg, hlk⟩ :=
        allocBaseSelectors_spec (F := F) output.num_cols meta
      obtain ⟨hrl, hrns, hrtc, hrlk⟩ := registerBaseGates_spec sem inputs output
        (allocBaseSelectors output.num_cols meta).1
        (allocBaseSelectors output.num_cols meta).2 m2 hreg
      have hsel : cfg.selectors = (allocBaseSelectors output.num_cols meta).1 :=
        (congrArg (fun p => (Prod.snd p).selectors) h0).symm
      refine ⟨?_, ?_, ?_, ?_⟩
      · rw [hsel, ← h3]
        exact hlen
      · rw [hsel, ← h3]
        exact hkeys
      · rw [← hm2, hrns, hns, h3]
      · rw [← hm2, hrl, hg, hlen, h3]

/-- C2 witness: at width 1 the concrete run creates 10 selectors, 10
fresh selector ids, and 10 gates. -/
theorem configure_selector_gate_count_witness :
    (BaseConfig.configure semSample csEmpty (inSample0, inSample1) outSample
        CheckMode.SAFE).map
        (fun p => (p.2.selectors.length, p.1.numSelectors, p.1.gates.length))
      = Except.ok (10 * 1, 0 + 10 * 1, 0 + 10 * 1) := by
  cases hres : BaseConfig.configure semSample csEmpty (inSample0, inSample1)
      outSample CheckMode.SAFE with
  | error e =>
      exfalso
      have hsome : (BaseConfig.configure semSample csEmpty
          (inSample0, inSample1) outSample CheckMode.SAFE).isOk = true := by
        rfl
      rw [hres] at hsome
      cases hsome
  | ok p =>
      obtain ⟨hl, _, hns, hg⟩ := configure_selector_gate_count semSample csEmpty
        (inSample0, inSample1) outSample CheckMode.SAFE 1 rfl rfl rfl
        (by decide) p.1 p.2 (by rw [hres])
      simp only [Except.map, hl, hns, hg]
      rfl

lemma configure_lookup_mem {F : Type} [CommRing F] (env : LookupEnv F)
    (cfg : BaseConfig) (cs : CS F) (input output : VarTensor)
    (bits logrows : Nat) (nl : LookupOp) (cs' : CS F) (cfg' : BaseConfig)
    (h : BaseConfig.configure_lookup env cfg cs input output bits logrows nl
        = some (cs', cfg')) :
    mapContains nl cfg'.tables = true := by
  unfold BaseConfig.configure_lookup at h
  by_cases hc : mapContains nl cfg.tables = true
  · rw [if_pos hc] at h
    have h0 := Option.some.inj h
    have hcfg : cfg = cfg' := congrArg Prod.snd h0
    rw [← hcfg]
    exact hc
  · rw [if_neg hc] at h
    cases hsc : (List.range input.num_cols).foldlM
        (configureLookupColumn env nl input output
          (chosenTable env cfg cs bits logrows nl).1)
        ([], (chosenTable env cfg cs bits logrows nl).2) with
    | none =>
        rw [hsc] at h
        cases h
    | some sc =>
        rw [hsc] at h
        simp only [Option.bind] at h
        have h0 := Option.some.inj h
        have htab : sortedInsert nl (chosenTable env cfg cs bits logrows nl).1
            cfg.tables = cfg'.tables :=
          congrArg (fun p => (Prod.snd p).tables) h0
        rw [← htab]
        exact mapContains_sortedInsert nl _ cfg.tables

/-- C3: a successful lookup configuration for an identity makes any
further `configure_lookup` call with that identity a no-op returning
success: the table registry, the lookup-selector map, and the
lookup-input/lookup-output bindings after the second call are exactly the
state after the first. -/
theorem configure_lookup_idempotent {F : Type} [CommRing F]
    (env : LookupEnv F) (cfg : BaseConfig) (cs : CS F)
    (input output : VarTensor) (bits logrows : Nat) (nl : LookupOp)
    (cs1 : CS F) (cfg1 : BaseConfig)
    (h : BaseConfig.configure_lookup env cfg cs input output bits logrows nl
        = some (cs1, cfg1))
    (input2 output2 : VarTensor) (bits2 logrows2 : Nat) :
    BaseConfig.configure_lookup env cfg1 cs1 input2 output2 bits2 logrows2 nl
      = some (cs1, cfg1) := by
  have hmem := configure_lookup_mem env cfg cs input output bits logrows nl
    cs1 cfg1 h
  unfold BaseConfig.configure_lookup
  rw [if_pos hmem]

/-- C3 witness: a concrete lookup configuration chained once more with the
same identity is exactly the first call. -/
theorem configure_lookup_idempotent_witness :
    ((BaseConfig.configure_lookup envSample cfgSample csEmpty inSample0
        outSample 2 4 7).bind
      (fun p => BaseConfig.configure_lookup envSample p.2 p.1 inSample0
        outSample 2 4 7))
      = BaseConfig.configure_lookup envSample cfgSample csEmpty inSample0
          outSample 2 4 7 := by
  cases hres : BaseConfig.configure_lookup envSample cfgSample csEmpty
      inSample0 outSample 2 4 7 with
  | none =>
      exfalso
      have hsome : (BaseConfig.configure_lookup envSample cfgSample csEmpty
          inSample0 outSample 2 4 7).isSome = true := by
        rfl
      rw [hres] at hsome
      cases hsome
  | some p =>
      simp only [Option.some_bind]
      exact configure_lookup_idempotent envSample cfgSample csEmpty inSample0
        outSample 2 4 7 p.1 p.2 (by rw [hres]) inSample0 outSample 2 4

lemma configure_lookup_success_cases {F : Type} [CommRing F]
    (env : LookupEnv F) (cfg : BaseConfig) (cs : CS F)
    (input output : VarTensor) (bits logrows : Nat) (nl : LookupOp)
    (cs' : CS F) (cfg' : BaseConfig)
    (h : BaseConfig.configure_lookup env cfg cs input output bits logrows nl
        = some (cs', cfg')) :
    (mapContains nl cfg.tables = true ∧ cs' = cs ∧ cfg' = cfg) ∨
    (mapContains nl cfg.tables = false ∧
      ∃ sels, cfg' = applyLookupState cfg input output nl
        (chosenTable env cfg cs bits logrows nl).1 sels) := by
  unfold BaseConfig.configure_lookup at h
  by_cases hc : mapContains nl cfg.tables = true
  · rw [if_pos hc] at h
    have h0 := Option.some.inj h
    exact Or.inl ⟨hc, (congrArg Prod.fst h0).symm, (congrArg Prod.snd h0).symm⟩
  · rw [if_neg hc] at h
    cases hsc : (List.range input.num_cols).foldlM
        (configureLookupColumn env nl input output
          (chosenTable env cfg cs bits logrows nl).1)
        ([], (chosenTable env cfg cs bits logrows nl).2) with
    | none =>
        rw [hsc] at h
        cases h
    | some sc =>
        rw [hsc] at h
        simp only [Option.bind] at h
        have h0 := Option.some.inj h
        exact Or.inr ⟨Bool.eq_false_iff.mpr hc, sc.1,
          (congrArg Prod.snd h0).symm⟩

/-- C8: the lookup-input and lookup-output handles start unbound (`Empty`)
in the configuration produced by gate configuration; the first successful
`configure_lookup` from that state (empty registry, unbound handles)
binds them to its input/output handles; and every later successful call
leaves an already-bound handle untouched. -/
theorem lookup_handles_bound_once {F : Type} [CommRing F] :
    (∀ (sem : BaseOpSem F) (meta : CS F) (inputs : VarTensor × VarTensor)
        (output : VarTensor) (check_mode : CheckMode) (meta' : CS F)
        (cfg : BaseConfig),
      BaseConfig.configure sem meta inputs output check_mode
          = Except.ok (meta', cfg) →
      cfg.lookup_input = VarTensor.Empty ∧
        cfg.lookup_output = VarTensor.Empty) ∧
    (∀ (env : LookupEnv F) (cfg : BaseConfig) (cs : CS F)
        (input output : VarTensor) (bits logrows : Nat) (nl : LookupOp)
        (cs' : CS F) (cfg' : BaseConfig),
      BaseConfig.configure_lookup env cfg cs input output bits logrows nl
          = some (cs', cfg') →
      (cfg.lookup_input ≠ VarTensor.Empty →
        cfg'.lookup_input = cfg.lookup_input) ∧
      (cfg.lookup_output ≠ VarTensor.Empty →
        cfg'.lookup_output = cfg.lookup_output)) ∧
    (∀ (env : LookupEnv F) (cfg : BaseConfig) (cs : CS F)
        (input output : VarTensor) (bits logrows : Nat) (nl : LookupOp)
        (cs' : CS F) (cfg' : BaseConfig),
      cfg.tables = [] → cfg.lookup_input = VarTensor.Empty →
      cfg.lookup_output = VarTensor.Empty →
      BaseConfig.configure_lookup env cfg cs input output bits logrows nl
          = some (cs', cfg') →
      cfg'.lookup_input = input ∧ cfg'.lookup_output = output) := by
  refine ⟨?_, ?_, ?_⟩
  · intro sem meta inputs output check_mode meta' cfg hres
    have hcond : inputs.1.num_cols = inputs.2.num_cols ∧
        inputs.1.num_cols = output.num_cols := by
      by_cases h : inputs.1.num_cols = inputs.2.num_cols ∧
          inputs.1.num_cols = output.num_cols
      · exact h
      · rw [BaseConfig.configure, if_neg h] at hres
        cases hres
    cases hreg : registerBaseGates sem inputs output
        (allocBaseSelectors output.num_cols meta).1
        (allocBaseSelectors output.num_cols meta).2 with
    | none =>
        simp only [BaseConfig.configure, if_pos hcond] at hres
        rw [hreg] at hres
        cases hres
    | some m2 =>
        simp only [BaseConfig.configure, if_pos hcond] at hres
        rw [hreg] at hres
        have h0 := Except.ok.inj hres
        exact ⟨(congrArg (fun p => (Prod.snd p).lookup_input) h0).symm,
          (congrArg (fun p => (Prod.snd p).lookup_output) h0).symm⟩
  · intro env cfg cs input output bits logrows nl cs' cfg' h
    rcases configure_lookup_success_cases env cfg cs input output bits logrows
        nl cs' cfg' h with ⟨_, _, hcfg⟩ | ⟨_, sels, hcfg⟩
    · rw [hcfg]
      exact ⟨fun _ => rfl, fun _ => rfl⟩
    · constructor
      · intro hner
        rw [hcfg]
        cases hv : cfg.lookup_input with
        | Advice a b => simp [applyLookupState, hv]
        | Dummy a => simp [applyLookupState, hv]
        | Empty => exact absurd hv hner
      · intro hner
        rw [hcfg]
        cases hv : cfg.lookup_output with
        | Advice a b => simp [applyLookupState, hv]
        | Dummy a => simp [applyLookupState, hv]
        | Empty => exact absurd hv hner
  · intro env cfg cs input output bits logrows nl cs' cfg' htab hli hlo h
    rcases configure_lookup_success_cases env cfg cs input output bits logrows
        nl cs' cfg' h with ⟨hcont, _, _⟩ | ⟨_, sels, hcfg⟩
    · rw [htab] at hcont
      cases hcont
    · rw [hcfg]
      constructor
      · simp [applyLookupState, hli]
      · simp [applyLookupState, hlo]

/-- C8 witness: from the freshly configured state, a concrete successful
lookup configuration binds the handles to its input and output. -/
theorem lookup_handles_bound_once_witness :
    (BaseConfig.configure_lookup envSample cfgSample csEmpty inSample0
        outSample 2 4 7).map (fun p => (p.2.lookup_input, p.2.lookup_output))
      = some (inSample0, outSample) := by
  cases hres : BaseConfig.configure_lookup envSample cfgSample csEmpty
      inSample0 outSample 2 4 7 with
  | none =>
      exfalso
      have hsome : (BaseConfig.configure_lookup envSample cfgSample csEmpty
          inSample0 outSample 2 4 7).isSome = true := by
        rfl
      rw [hres] at hsome
      cases hsome
  | some p =>
      obtain ⟨hi, ho⟩ := (lookup_handles_bound_once (F := Int)).2.2 envSample
        cfgSample csEmpty inSample0 outSample 2 4 7 p.1 p.2 rfl rfl rfl
        (by rw [hres])
      simp [hi, ho]

/-- C9: the gate `configure` builds for IsBoolean constrains the second
input `q` by `q·(q−1)` — under evaluation a committed value 2 violates it
(in a field where 2 ≠ 0) while 0 and 1 satisfy it — and the IsZero gate's
constraint is `q` itself; both bypass the generic path (their constraint
lists are exactly these, independent of the operation formula semantics
`sem` and of the output region). -/
theorem isboolean_iszero_gates {F : Type} [CommRing F] (sem : BaseOpSem F)
    (inputs : VarTensor × VarTensor) (output : VarTensor) (col_idx : Nat)
    (q : Expression F)
    (hq : secondInputQuery F inputs output col_idx = some q) :
    gateConstraints sem inputs output BaseOp.IsBoolean col_idx
        = some [Expression.mul q (Expression.sub q (Expression.const 1))] ∧
    gateConstraints sem inputs output BaseOp.IsZero col_idx = some [q] ∧
    (∀ (σs : Nat → F) (σa : Nat → Int → F),
      Expression.eval σs σa
          (Expression.mul q (Expression.sub q (Expression.const 1)))
        = Expression.eval σs σa q * (Expression.eval σs σa q - 1)) ∧
    ((2 : F) ≠ 0 → ∀ (σs : Nat → F) (σa : Nat → Int → F),
      Expression.eval σs σa q = 2 →
      Expression.eval σs σa
          (Expression.mul q (Expression.sub q (Expression.const 1))) ≠ 0) ∧
    (∀ (σs : Nat → F) (σa : Nat → Int → F),
      Expression.eval σs σa q = 0 ∨ Expression.eval σs σa q = 1 →
      Expression.eval σs σa
          (Expression.mul q (Expression.sub q (Expression.const 1))) = 0) := by
  cases hql : VarTensor.query_rng F inputs.2 0 (col_idx * output.col_size) 1 with
  | none =>
      rw [secondInputQuery, hql] at hq
      cases hq
  | some l =>
      rw [secondInputQuery, hql] at hq
      simp only [Option.bind] at hq
      have hqis : gateQis F inputs (col_idx * output.col_size) 1
          = some (Expression.const 0, q) := by
        simp [gateQis, hql, hq]
      refine ⟨?_, ?_, ?_, ?_, ?_⟩
      · simp [gateConstraints, BaseOp.num_inputs, hqis]
      · simp [gateConstraints, BaseOp.num_inputs, hqis]
      · intro σs σa
        simp [Expression.eval]
      · intro h2 σs σa hv
        simp only [Expression.eval, hv]
        intro hcontra
        apply h2
        calc (2 : F) = 2 * (2 - 1) := by ring
        _ = 0 := hcontra
      · intro σs σa hv
        rcases hv with hv | hv <;> simp [Expression.eval, hv]

/-- C9 witness: on concrete width-1 advice handles the IsBoolean and
IsZero gate constraints are exactly `q·(q−1)` and `q` for the second-input
cell `q`, and the boolean constraint evaluates to 2 ≠ 0 when that cell
holds 2. -/
theorem isboolean_iszero_gates_witness :
    gateConstraints semSample (inSample0, inSample1) outSample
        BaseOp.IsBoolean 0
      = some [Expression.mul (Expression.advice 1 0)
          (Expression.sub (Expression.advice 1 0)
            (Expression.const (1 : Int)))] ∧
    gateConstraints semSample (inSample0, inSample1) outSample BaseOp.IsZero 0
      = some [Expression.advice 1 0] ∧
    Expression.eval (fun _ => (1 : Int)) (fun _ _ => 2)
        (Expression.mul (Expression.advice 1 0)
          (Expression.sub (Expression.advice 1 0)
            (Expression.const (1 : Int)))) ≠ 0 := by
  obtain ⟨h1, h2, _, h4, _⟩ := isboolean_iszero_gates semSample
    (inSample0, inSample1) outSample 0 (Expression.advice 1 0) rfl
  exact ⟨h1, h2, h4 (by decide) (fun _ => (1 : Int)) (fun _ _ => 2) rfl⟩

lemma configureLookupColumn_advice_fields {F : Type} [CommRing F]
    (env : LookupEnv F) (nl : LookupOp) (advsIn : List Nat) (iszIn : Nat)
    (advsOut : List Nat) (oszOut : Nat) (table : Table)
    (acc : List ((LookupOp × Nat) × Nat)) (cs0 : CS F) (x : Nat) :
    (configureLookupColumn env nl (VarTensor.Advice advsIn iszIn)
        (VarTensor.Advice advsOut oszOut) table (acc, cs0) x).map
        (fun res => (res.2.gates, res.2.numSelectors, res.2.numTableCols,
          res.1))
      = some (cs0.gates ++ [aggregateGate
            ((List.range table.table_inputs.length).map
              (fun k => cs0.numSelectors + k))],
          cs0.numSelectors + table.table_inputs.length + 1,
          cs0.numTableCols,
          mapInsert (nl, x) (cs0.numSelectors + table.table_inputs.length)
            acc) := rfl

lemma configureLookupColumns_fold {F : Type} [CommRing F] (env : LookupEnv F)
    (nl : LookupOp) (advsIn : List Nat) (iszIn : Nat) (advsOut : List Nat)
    (oszOut : Nat) (table : Table) :
    ∀ (W : Nat) (acc0 : List ((LookupOp × Nat) × Nat)) (cs0 : CS F),
      ∃ sels csF, (List.range W).foldlM
          (configureLookupColumn env nl (VarTensor.Advice advsIn iszIn)
            (VarTensor.Advice advsOut oszOut) table)
          (acc0, cs0) = some (sels, csF) ∧
        csF.gates = cs0.gates ++ (List.range W).map
          (fun x => aggregateGate
            (lookupFlagIds cs0.numSelectors table.table_inputs.length x)) ∧
        csF.numSelectors
          = cs0.numSelectors + W * (table.table_inputs.length + 1) ∧
        csF.numTableCols = cs0.numTableCols := by
  intro W
  induction W with
  | zero =>
      intro acc0 cs0
      exact ⟨acc0, cs0, rfl, by simp, by simp, rfl⟩
  | succ W ih =>
      intro acc0 cs0
      obtain ⟨sels, csF, hfold, hg, hns, htc⟩ := ih acc0 cs0
      have hproj := configureLookupColumn_advice_fields env nl advsIn iszIn
        advsOut oszOut table sels csF W
      cases hcol : configureLookupColumn env nl (VarTensor.Advice advsIn iszIn)
          (VarTensor.Advice advsOut oszOut) table (sels, csF) W with
      | none =>
          rw [hcol] at hproj
          cases hproj
      | some res =>
          rw [hcol] at hproj
          simp only [Option.map_some', Option.some.injEq,
            Prod.mk.injEq] at hproj
          obtain ⟨hg', hns', htc', _⟩ := hproj
          have hsplit : (List.range (W + 1)).foldlM
              (configureLookupColumn env nl (VarTensor.Advice advsIn iszIn)
                (VarTensor.Advice advsOut oszOut) table) (acc0, cs0)
              = some res := by
            rw [List.range_succ, List.foldlM_append, hfold]
            simp [hcol]
          refine ⟨res.1, res.2, by rw [hsplit], ?_, ?_, ?_⟩
          · rw [hg', hg, hns, List.range_succ]
            simp [lookupFlagIds, List.append_assoc]
          · rw [hns', hns]
            ring
          · rw [htc', htc]

/-- C4: from an empty table registry, a successful full `configure_lookup`
over advice handles registers, per input column, exactly one auxiliary
gate (besides no other gate), whose sole constraint is the accumulated
product of all per-component-table boolean gating flags allocated for that
column; evaluating that constraint yields the product of the flag
values. -/
theorem configure_lookup_aggregate_gate {F : Type} [CommRing F]
    (env : LookupEnv F) (cfg : BaseConfig) (cs : CS F) (advsIn : List Nat)
    (iszIn : Nat) (advsOut : List Nat) (oszOut : Nat) (bits logrows : Nat)
    (nl : LookupOp) (cs' : CS F) (cfg' : BaseConfig)
    (hempty : cfg.tables = [])
    (hrun : BaseConfig.configure_lookup env cfg cs
        (VarTensor.Advice advsIn iszIn) (VarTensor.Advice advsOut oszOut)
        bits logrows nl = some (cs', cfg')) :
    cs'.gates = cs.gates ++ (List.range advsIn.length).map
        (fun x => aggregateGate
          (lookupFlagIds cs.numSelectors (env.numComponents nl) x)) ∧
    (∀ qs : List Nat, (aggregateGate (F := F) qs).constraints.length = 1) ∧
    (∀ (qs : List Nat) (c : Expression F) (σs : Nat → F) (σa : Nat → Int → F),
      (aggregateGate (F := F) qs).constraints = [c] →
      Expression.eval σs σa c = (qs.map σs).prod) := by
  have hc : ¬ mapContains nl cfg.tables = true := by
    rw [hempty]
    simp [mapContains]
  have htbl : chosenTable env cfg cs bits logrows nl
      = Table.configure env cs bits logrows nl none := by
    rw [chosenTable, hempty]
    rfl
  have h1 : (chosenTable env cfg cs bits logrows nl).1.table_inputs.length
      = env.numComponents nl := by
    rw [htbl]
    simp [Table.configure, CS.freshTableCols]
  have h2 : (chosenTable env cfg cs bits logrows nl).2.gates = cs.gates := by
    rw [htbl]
    rfl
  have h3 : (chosenTable env cfg cs bits logrows nl).2.numSelectors
      = cs.numSelectors := by
    rw [htbl]
    rfl
  obtain ⟨sels, csF, hfold, hg, hns, htc⟩ := configureLookupColumns_fold env nl
    advsIn iszIn advsOut oszOut (chosenTable env cfg cs bits logrows nl).1
    ((VarTensor.Advice advsIn iszIn).num_cols) []
    (chosenTable env cfg cs bits logrows nl).2
  unfold BaseConfig.configure_lookup at hrun
  rw [if_neg hc, hfold] at hrun
  simp only [Option.bind] at hrun
  have hcs : csF = cs' := congrArg Prod.fst (Option.some.inj hrun)
  refine ⟨?_, ?_, ?_⟩
  · rw [← hcs, hg, h1, h2, h3]
    simp [VarTensor.num_cols]
  · intro qs
    rfl
  · intro qs c σs σa hcq
    simp only [aggregateGate, List.cons.injEq, and_true] at hcq
    rw [← hcq, eval_selector_foldl]
    simp [Expression.eval]

/-- C4 witness: the concrete single-column, single-component run registers
exactly the one auxiliary product gate for its column. -/
theorem configure_lookup_aggregate_gate_witness :
    (BaseConfig.configure_lookup envSample cfgSample csEmpty inSample0
        outSample 2 4 7).map (fun p => p.1.gates)
      = some (csEmpty.gates ++ (List.range 1).map
          (fun x => aggregateGate (lookupFlagIds 0 1 x))) := by
  cases hres : BaseConfig.configure_lookup envSample cfgSample csEmpty
      inSample0 outSample 2 4 7 with
  | none =>
      exfalso
      have hsome : (BaseConfig.configure_lookup envSample cfgSample csEmpty
          inSample0 outSample 2 4 7).isSome = true := by
        rfl
      rw [hres] at hsome
      cases hsome
  | some p =>
      have hres' : BaseConfig.configure_lookup envSample cfgSample csEmpty
          (VarTensor.Advice [0] 1) (VarTensor.Advice [2] 1) 2 4 7
          = some (p.1, p.2) := by
        rw [show VarTensor.Advice [0] 1 = inSample0 from rfl,
          show VarTensor.Advice [2] 1 = outSample from rfl, hres]
      obtain ⟨hgate, _, _⟩ := configure_lookup_aggregate_gate envSample
        cfgSample csEmpty [0] 1 [2] 1 2 4 7 p.1 p.2 rfl hres'
      simp only [Option.map_some']
      rw [hgate]
      rfl

/-- C5 (amended): when `configure_lookup` is called with an identity that
has no table yet, the new table adopts the first registered table's domain
columns whenever ANY table already exists — regardless of domain
compatibility — and fresh domain columns are allocated only when the
registry is empty; consequently two successive configurations of distinct
identities from an empty registry yield tables with identical domain
columns. -/
theorem configure_lookup_domain_reuse {F : Type} [CommRing F]
    (env : LookupEnv F) (cfg : BaseConfig) (cs : CS F)
    (input output : VarTensor) (bits logrows : Nat) (nl : LookupOp)
    (cs' : CS F) (cfg' : BaseConfig)
    (hrun : BaseConfig.configure_lookup env cfg cs input output bits logrows
        nl = some (cs', cfg'))
    (hnew : mapContains nl cfg.tables = false) :
    (∀ t0, (cfg.tables.map Prod.snd).head? = some t0 →
      ∃ t, mapGet nl cfg'.tables = some t ∧
        t.table_inputs = t0.table_inputs) ∧
    (cfg.tables = [] →
      ∃ t, mapGet nl cfg'.tables = some t ∧
        t.table_inputs = (List.range (env.numComponents nl)).map
          (fun k => cs.numTableCols + k)) ∧
    (∀ (input2 output2 : VarTensor) (bits2 logrows2 : Nat) (nl2 : LookupOp)
        (cs'' : CS F) (cfg'' : BaseConfig),
      cfg.tables = [] → nl2 ≠ nl →
      BaseConfig.configure_lookup env cfg' cs' input2 output2 bits2 logrows2
          nl2 = some (cs'', cfg'') →
      ∃ t1 t2, mapGet nl cfg''.tables = some t1 ∧
        mapGet nl2 cfg''.tables = some t2 ∧
        t2.table_inputs = t1.table_inputs) := by
  rcases configure_lookup_success_cases env cfg cs input output bits logrows
      nl cs' cfg' hrun with ⟨hcont, _, _⟩ | ⟨_, sels, hcfg⟩
  · rw [hcont] at hnew
    cases hnew
  · have htabs : cfg'.tables
        = sortedInsert nl (chosenTable env cfg cs bits logrows nl).1
            cfg.tables := by
      rw [hcfg]
      rfl
    refine ⟨?_, ?_, ?_⟩
    · intro t0 ht0
      have hchoose : chosenTable env cfg cs bits logrows nl
          = Table.configure env cs bits logrows nl (some t0.table_inputs) := by
        rw [chosenTable, ht0]
      refine ⟨(chosenTable env cfg cs bits logrows nl).1, ?_, ?_⟩
      · rw [htabs]
        exact mapGet_sortedInsert_self nl _ cfg.tables
      · rw [hchoose]
        rfl
    · intro hempty
      have hchoose : chosenTable env cfg cs bits logrows nl
          = Table.configure env cs bits logrows nl none := by
        rw [chosenTable, hempty]
        rfl
      refine ⟨(chosenTable env cfg cs bits logrows nl).1, ?_, ?_⟩
      · rw [htabs]
        exact mapGet_sortedInsert_self nl _ cfg.tables
      · rw [hchoose]
        rfl
    · intro input2 output2 bits2 logrows2 nl2 cs'' cfg'' hempty hne hrun2
      have htabs1 : cfg'.tables
          = [(nl, (chosenTable env cfg cs bits logrows nl).1)] := by
        rw [htabs, hempty]
        rfl
      have hnew2 : mapContains nl2 cfg'.tables = false := by
        rw [htabs1, mapContains_eq_false_iff]
        intro e he
        simp only [List.mem_singleton] at he
        subst he
        exact fun hcontra => hne hcontra.symm
      rcases configure_lookup_success_cases env cfg' cs' input2 output2 bits2
          logrows2 nl2 cs'' cfg'' hrun2 with ⟨hcont2, _, _⟩ | ⟨_, sels2, hcfg2⟩
      · rw [hcont2] at hnew2
        cases hnew2
      · have htabs2 : cfg''.tables
            = sortedInsert nl2
                (chosenTable env cfg' cs' bits2 logrows2 nl2).1
                cfg'.tables := by
          rw [hcfg2]
          rfl
        have hchoose2 : chosenTable env cfg' cs' bits2 logrows2 nl2
            = Table.configure env cs' bits2 logrows2 nl2
                (some (chosenTable env cfg cs bits logrows nl).1.table_inputs)
            := by
          rw [chosenTable, htabs1]
          rfl
        refine ⟨(chosenTable env cfg cs bits logrows nl).1,
          (chosenTable env cfg' cs' bits2 logrows2 nl2).1, ?_, ?_, ?_⟩
        · rw [htabs2, mapGet_sortedInsert_ne nl nl2 _ (fun h => hne h.symm),
            htabs1]
          simp [mapGet]
        · rw [htabs2]
          exact mapGet_sortedInsert_self nl2 _ cfg'.tables
        · rw [hchoose2]
          rfl

/-- C5 counterexample: with a 2-bit table registered for identity 0, a
lookup configuration for identity 1 at bit-width 3 — a structurally
incompatible domain — still reuses identity 0's domain column instead of
allocating a fresh one: the claim's "otherwise a fresh domain column is
allocated" is false on the code. -/
theorem configure_lookup_domain_reuse_counterexample :
    ((BaseConfig.configure_lookup envSample cfgSample csEmpty inSample0
        outSample 2 4 0).bind
      (fun p => BaseConfig.configure_lookup envSample p.2 p.1 inSample0
        outSample 3 4 1)).map (fun p => p.2.tables)
      = some [(0, tableA), (1, tableC5)] ∧
    Table.compatibleDomain tableA 3 = false ∧
    tableC5.table_inputs = tableA.table_inputs ∧
    tableA.table_inputs ≠ [] := by
  refine ⟨by decide, by decide, by decide, by decide⟩

/-- C5 witness: with `tableA` registered first, a concrete configuration
of a new identity reuses `tableA`'s domain column 0. -/
theorem configure_lookup_domain_reuse_witness :
    (BaseConfig.configure_lookup envSample cfgTables csEmpty inSample0
        outSample 2 4 7).map
        (fun p => (mapGet 7 p.2.tables).map Table.table_inputs)
      = some (some [0]) := by
  cases hres : BaseConfig.configure_lookup envSample cfgTables csEmpty
      inSample0 outSample 2 4 7 with
  | none =>
      exfalso
      have hsome : (BaseConfig.configure_lookup envSample cfgTables csEmpty
          inSample0 outSample 2 4 7).isSome = true := by
        rfl
      rw [hres] at hsome
      cases hsome
  | some p =>
      obtain ⟨h1, _, _⟩ := configure_lookup_domain_reuse envSample cfgTables
        csEmpty inSample0 outSample 2 4 7 p.1 p.2 (by rw [hres]) (by decide)
      obtain ⟨t, hget, hinp⟩ := h1 tableA (by decide)
      simp only [Option.map_some']
      rw [hget]
      simp only [Option.map_some']
      rw [hinp]
      rfl

lemma Table.layout_assigned {F : Type} (env : LookupEnv F) (t : Table)
    (b : Bool) : (Table.layout env t b).1.is_assigned = true := rfl

lemma Table.layout_true_writes {F : Type} (env : LookupEnv F) (t : Table) :
    ∀ w ∈ (Table.layout env t true).2, w.col ∈ t.table_outputs := by
  intro w hw
  simp only [Table.layout, if_pos, List.nil_append] at hw
  simp only [List.mem_flatMap, List.mem_map] at hw
  obtain ⟨c, hc, p, _, hw⟩ := hw
  rw [← hw]
  exact hc

lemma layoutTablesGo_all_assigned_id {F : Type} (env : LookupEnv F) :
    ∀ (l : List (LookupOp × Table)) (i : Nat),
      (∀ p ∈ l, p.2.is_assigned = true) → layoutTablesGo env i l = (l, []) := by
  intro l
  induction l with
  | nil =>
      intro i _
      rfl
  | cons e rest ih =>
      intro i h
      obtain ⟨k, t⟩ := e
      have he : t.is_assigned = true := h (k, t) (by simp)
      have hrest := ih (i + 1) (fun p hp => h p (by simp [hp]))
      simp [layoutTablesGo, he, hrest]

lemma layoutTablesGo_assigned_after {F : Type} (env : LookupEnv F) :
    ∀ (l : List (LookupOp × Table)) (i : Nat),
      ∀ p ∈ (layoutTablesGo env i l).1, p.2.is_assigned = true := by
  intro l
  induction l with
  | nil =>
      intro i p hp
      simp [layoutTablesGo] at hp
  | cons e rest ih =>
      intro i p hp
      obtain ⟨k, t⟩ := e
      simp only [layoutTablesGo] at hp
      rcases List.mem_cons.mp hp with hph | hpt
      · subst hph
        by_cases ha : t.is_assigned = true
        · simp [ha]
        · by_cases hi : i = 0
          · simp [ha, hi, Table.layout_assigned]
          · simp [ha, hi, Table.layout_assigned]
      · exact ih (i + 1) p hpt

lemma layoutTablesGo_pos_writes {F : Type} (env : LookupEnv F) :
    ∀ (l : List (LookupOp × Table)) (i : Nat), 1 ≤ i →
      ∀ w ∈ (layoutTablesGo env i l).2,
        ∃ p ∈ l, w.col ∈ p.2.table_outputs := by
  intro l
  induction l with
  | nil =>
      intro i _ w hw
      simp [layoutTablesGo] at hw
  | cons e rest ih =>
      intro i hi w hw
      obtain ⟨k, t⟩ := e
      simp only [layoutTablesGo] at hw
      rw [List.mem_append] at hw
      rcases hw with hw1 | hw2
      · by_cases ha : t.is_assigned = true
        · rw [if_pos ha] at hw1
          simp at hw1
        · rw [if_neg ha, if_neg (by omega : ¬ i = 0)] at hw1
          exact ⟨(k, t), by simp, Table.layout_true_writes env t w hw1⟩
      · obtain ⟨p, hp, hcol⟩ := ih (i + 1) (by omega) w hw2
        exact ⟨p, by simp [hp], hcol⟩

lemma layoutTablesGo_assigned_kept {F : Type} (env : LookupEnv F) :
    ∀ (l : List (LookupOp × Table)) (i : Nat) (p : LookupOp × Table),
      p ∈ l → p.2.is_assigned = true → p ∈ (layoutTablesGo env i l).1 := by
  intro l
  induction l with
  | nil =>
      intro i p hp _
      cases hp
  | cons e rest ih =>
      intro i p hp ha
      obtain ⟨k, t⟩ := e
      simp only [layoutTablesGo]
      rcases List.mem_cons.mp hp with hph | hpt
      · subst hph
        rw [if_pos ha]
        exact List.mem_cons_self _ _
      · exact List.mem_cons_of_mem _ (ih (i + 1) p hpt ha)

/-- C6: `layout_tables` lays out only registered tables whose assigned
flag is false (when every table is assigned it performs no writes and
leaves the state unchanged); after one invocation every table is assigned,
so a second invocation performs no writes; and every table beyond registry
index 0 is laid out in the mode that skips re-writing domain cells — all
writes past the head table's layout land only in later tables' codomain
columns. -/
theorem layout_tables_spec {F : Type} (env : LookupEnv F) (cfg : BaseConfig) :
    ((∀ p ∈ cfg.tables, p.2.is_assigned = true) →
      BaseConfig.layout_tables env cfg = (cfg, [])) ∧
    (∀ p ∈ (BaseConfig.layout_tables env cfg).1.tables,
      p.2.is_assigned = true) ∧
    (BaseConfig.layout_tables env (BaseConfig.layout_tables env cfg).1
      = ((BaseConfig.layout_tables env cfg).1, [])) ∧
    (∀ k t rest, cfg.tables = (k, t) :: rest →
      ∃ wsRest, (BaseConfig.layout_tables env cfg).2
          = (if t.is_assigned = true then []
             else (Table.layout env t false).2) ++ wsRest ∧
        ∀ w ∈ wsRest, ∃ p ∈ rest, w.col ∈ p.2.table_outputs) ∧
    (∀ p ∈ cfg.tables, p.2.is_assigned = true →
      p ∈ (BaseConfig.layout_tables env cfg).1.tables) := by
  refine ⟨?_, ?_, ?_, ?_, ?_⟩
  · intro h
    unfold BaseConfig.layout_tables
    rw [layoutTablesGo_all_assigned_id env cfg.tables 0 h]
  · intro p hp
    exact layoutTablesGo_assigned_after env cfg.tables 0 p hp
  · have hX := layoutTablesGo_all_assigned_id env
      (layoutTablesGo env 0 cfg.tables).1 0
      (layoutTablesGo_assigned_after env cfg.tables 0)
    have hred : BaseConfig.layout_tables env
        (BaseConfig.layout_tables env cfg).1
        = ({ (BaseConfig.layout_tables env cfg).1 with
              tables := (layoutTablesGo env 0
                (layoutTablesGo env 0 cfg.tables).1).1 },
           (layoutTablesGo env 0 (layoutTablesGo env 0 cfg.tables).1).2) :=
      rfl
    rw [hred, hX]
    rfl
  · intro k t rest hct
    refine ⟨(layoutTablesGo env 1 rest).2, ?_, ?_⟩
    · unfold BaseConfig.layout_tables
      rw [hct]
      by_cases ha : t.is_assigned = true
      · simp [layoutTablesGo, ha]
      · simp [layoutTablesGo, ha]
    · exact fun w hw => layoutTablesGo_pos_writes env rest 1 (by omega) w hw
  · intro p hp ha
    exact layoutTablesGo_assigned_kept env cfg.tables 0 p hp ha

/-- C6 witness: a registry whose only table is already assigned is left
untouched, with no writes. -/
theorem layout_tables_spec_witness :
    BaseConfig.layout_tables envSample cfgAssigned = (cfgAssigned, []) :=
  (layout_tables_spec envSample cfgAssigned).1 (by decide)
